import Mathlib

/-!
Verification of the online-marketplace backend (buyer gateway, seller gateway,
product/catalog store) against its natural-language specification.

The Rust services are shallowly embedded: the product database's `handle_request`
becomes a pure function on an explicit `StoreState`; the gateways' shared
`validate_session` becomes a pure function over a session store and a current
time.  Uuid identifiers are modelled as `Nat` (the store draws fresh ids from a
counter), the `i32` quantities as `Int`, and the `f64` prices as `Rat` (no
arithmetic is ever performed on prices; they are only stored and compared).
Concurrent maps (`DashMap`) are modelled as association lists; each request is
one atomic step, matching the store's "every operation is a single atomic step"
contract.
-/

set_option autoImplicit false

namespace Marketplace

/-- Feedback counters carried by an item (`common::Feedback`). -/
structure Feedback where
  thumbs_up : Nat
  thumbs_down : Nat
deriving DecidableEq, Repr

/-- Item condition enum (`common::Condition`). -/
inductive Condition where
  | New
  | Used
deriving DecidableEq, Repr

/-- A catalog item (`common::Item`). -/
structure Item where
  item_id : Nat
  item_name : String
  item_category : Int
  keywords : List String
  condition : Condition
  sale_price : Rat
  quantity : Int
  feedback : Feedback
  seller_id : Nat
deriving DecidableEq, Repr

/-- A cart line (`common::CartItem`). -/
structure CartItem where
  item_id : Nat
  quantity : Int
deriving DecidableEq, Repr

/-- Role of a session (`common::UserType`). -/
inductive UserType where
  | Buyer
  | Seller
deriving DecidableEq, Repr

/-- A session record (`common::Session`). -/
structure Session where
  session_id : Nat
  user_id : Nat
  user_type : UserType
  expiration : Int
deriving DecidableEq, Repr

/-! ### Association lists (model of `DashMap`) -/

section AList

variable {α : Type} {β : Type} [DecidableEq α]

/-- First-occurrence lookup, the model of `DashMap::get`. -/
def alookup (k : α) : List (α × β) → Option β
  | [] => none
  | (k', v) :: rest => if k' = k then some v else alookup k rest

/-- Insert-or-replace, the model of `DashMap::insert`. -/
def ainsert (k : α) (v : β) : List (α × β) → List (α × β)
  | [] => [(k, v)]
  | (k', v') :: rest => if k' = k then (k, v) :: rest else (k', v') :: ainsert k v rest

/-- Key removal, the model of `DashMap::remove`. -/
def aremove (k : α) : List (α × β) → List (α × β)
  | [] => []
  | (k', v') :: rest => if k' = k then rest else (k', v') :: aremove k rest

/-- Model of `DashMap::entry(k).or_insert_with(|| d)` followed by an in-place
mutation `f` of the entry's value. -/
def aupd (k : α) (d : β) (f : β → β) : List (α × β) → List (α × β)
  | [] => [(k, f d)]
  | (k', v) :: rest => if k' = k then (k, f v) :: rest else (k', v) :: aupd k d f rest

end AList

/-! ### Product database requests/responses (`common::ProductDbRequest/Response`) -/

inductive ProductDbRequest where
  | CreateItem (item : Item)
  | UpdateItem (item : Item)
  | GetItem (item_id : Nat)
  | GetItemsBySeller (seller_id : Nat)
  | SearchItems (category : Option Int) (keywords : List String)
  | AddToCart (buyer_id : Nat) (item_id : Nat) (quantity : Int)
  | RemoveFromCart (buyer_id : Nat) (item_id : Nat) (quantity : Int)
  | GetCart (buyer_id : Nat)
  | SaveCart (buyer_id : Nat) (cart : List CartItem)
  | ClearCart (buyer_id : Nat)
  | AddPurchaseHistory (buyer_id : Nat) (item_id : Nat)
  | GetPurchaseHistory (buyer_id : Nat)
deriving DecidableEq, Repr

inductive ProductDbResponse where
  | ItemCreated (item_id : Nat)
  | ItemUpdated
  | ItemResp (item : Option Item)
  | Items (items : List Item)
  | Cart (cart : List CartItem)
  | CartSaved
  | CartCleared
  | PurchaseRecorded
  | PurchaseHistory (history : List Nat)
  | Error (msg : String)
deriving DecidableEq, Repr

/-- The product database's in-memory state: the primary item map, carts,
purchase histories, the two secondary indexes, and the counter supplying
fresh item identities (model of `Uuid::new_v4`). -/
structure StoreState where
  items : List (Nat × Item)
  carts : List (Nat × List CartItem)
  purchase_history : List (Nat × List Nat)
  seller_items : List (Nat × List Nat)
  category_items : List (Int × List Nat)
  next_id : Nat
deriving DecidableEq, Repr

def emptyStore : StoreState :=
  { items := [], carts := [], purchase_history := [], seller_items := [],
    category_items := [], next_id := 0 }

/-- Model of `Vec::iter_mut().find(|ci| ci.item_id == item_id)` + increment,
falling back to `Vec::push` of a new `CartItem` when no line matches
(`product_db` AddToCart body). -/
def addToCartLine (item_id : Nat) (quantity : Int) : List CartItem → List CartItem
  | [] => [{ item_id := item_id, quantity := quantity }]
  | ci :: rest =>
      if ci.item_id = item_id then
        { ci with quantity := ci.quantity + quantity } :: rest
      else
        ci :: addToCartLine item_id quantity rest

/-- Model of the `product_db` RemoveFromCart body: find the first line for the
item; drop it when its quantity is at most the removal, decrement otherwise;
do nothing when no line matches. -/
def removeFromCartLine (item_id : Nat) (quantity : Int) : List CartItem → List CartItem
  | [] => []
  | ci :: rest =>
      if ci.item_id = item_id then
        if ci.quantity ≤ quantity then rest
        else { ci with quantity := ci.quantity - quantity } :: rest
      else ci :: removeFromCartLine item_id quantity rest

/-- The keyword filter used by SearchItems:
`keywords.is_empty() || keywords.iter().all(|kw| item.keywords.contains(kw))`. -/
def kwMatch (keywords : List String) (item : Item) : Bool :=
  keywords.isEmpty || keywords.all fun kw => decide (kw ∈ item.keywords)

/-- Number of required keywords found in an item, the sort key of SearchItems'
`sort_by` comparator. -/
def matchCount (keywords : List String) (item : Item) : Nat :=
  (keywords.filter fun kw => decide (kw ∈ item.keywords)).length

/-- Stable descending insertion by `matchCount`; together with `sortByRank`
this models `results.sort_by(|a, b| b_matches.cmp(&a_matches))` (a stable
sort by descending match count). -/
def insertByRank (keywords : List String) (a : Item) : List Item → List Item
  | [] => [a]
  | b :: rest =>
      if matchCount keywords b < matchCount keywords a then a :: b :: rest
      else b :: insertByRank keywords a rest

def sortByRank (keywords : List String) : List Item → List Item
  | [] => []
  | a :: rest => insertByRank keywords a (sortByRank keywords rest)

/-- The product database's request handler (`product_db::handle_request`),
returning the response together with the successor store state. -/
def handle_request (req : ProductDbRequest) (s : StoreState) :
    ProductDbResponse × StoreState :=
  match req with
  | .CreateItem item =>
      let item_id := s.next_id
      let item' := { item with item_id := item_id }
      (.ItemCreated item_id,
        { s with
          items := ainsert item_id item' s.items,
          seller_items := aupd item.seller_id [] (fun l => l ++ [item_id]) s.seller_items,
          category_items := aupd item.item_category [] (fun l => l ++ [item_id]) s.category_items,
          next_id := s.next_id + 1 })
  | .UpdateItem item =>
      (.ItemUpdated, { s with items := ainsert item.item_id item s.items })
  | .GetItem item_id =>
      (.ItemResp (alookup item_id s.items), s)
  | .GetItemsBySeller seller_id =>
      let ids := (alookup seller_id s.seller_items).getD []
      (.Items (ids.filterMap fun i => alookup i s.items), s)
  | .SearchItems category keywords =>
      let results :=
        match category with
        | some cat =>
            let ids := (alookup cat s.category_items).getD []
            (ids.filterMap fun i => alookup i s.items).filter (kwMatch keywords)
        | none =>
            (s.items.map Prod.snd).filter (kwMatch keywords)
      (.Items (sortByRank keywords results), s)
  | .AddToCart buyer_id item_id quantity =>
      match alookup item_id s.items with
      | some item =>
          if item.quantity < quantity then
            (.Error "Insufficient quantity", s)
          else
            (.CartSaved,
              { s with carts := aupd buyer_id [] (addToCartLine item_id quantity) s.carts })
      | none => (.Error "Item not found", s)
  | .RemoveFromCart buyer_id item_id quantity =>
      match alookup buyer_id s.carts with
      | some cart =>
          (.CartSaved,
            { s with carts := ainsert buyer_id (removeFromCartLine item_id quantity cart) s.carts })
      | none => (.CartSaved, s)
  | .GetCart buyer_id =>
      (.Cart ((alookup buyer_id s.carts).getD []), s)
  | .SaveCart buyer_id cart =>
      (.CartSaved, { s with carts := ainsert buyer_id cart s.carts })
  | .ClearCart buyer_id =>
      (.CartCleared, { s with carts := aremove buyer_id s.carts })
  | .AddPurchaseHistory buyer_id item_id =>
      (.PurchaseRecorded,
        { s with purchase_history := aupd buyer_id [] (fun l => l ++ [item_id]) s.purchase_history })
  | .GetPurchaseHistory buyer_id =>
      (.PurchaseHistory ((alookup buyer_id s.purchase_history).getD []), s)

/-- Apply a sequence of product-database requests to a store state. -/
def applyOps (ops : List ProductDbRequest) (s : StoreState) : StoreState :=
  ops.foldl (fun s op => (handle_request op s).2) s

/-! ### Session store and gateway session validation -/

/-- The session half of the account/session store's state, as observed by the
gateways through GetSession / DeleteSession. -/
abbrev SessionStore : Type := List (Nat × Session)

/-- The gateways' shared `validate_session` (identical in `buyer_server` and
`seller_server`): fetch the session, lazily delete and fail on expiry, fail on
role mismatch, otherwise yield the session.  Returns the result together with
the session store left behind (the expiry branch issues a best-effort
DeleteSession). -/
def validate_session (store : SessionStore) (now : Int) (session_id : Nat)
    (expected_type : UserType) : Except String Session × SessionStore :=
  match alookup session_id store with
  | some session =>
      if session.expiration < now then
        (.error "Session expired", aremove session_id store)
      else if session.user_type ≠ expected_type then
        (.error "Invalid session type", store)
      else
        (.ok session, store)
  | none => (.error "Session not found", store)

/-! ### Seller gateway handlers (`seller_server::handle_request`, price/units arms) -/

/-- The seller-gateway response variants needed by the embedded handlers. -/
inductive SellerResponse where
  | ChangeItemPrice
  | UpdateUnitsForSale
  | Error (msg : String)
deriving DecidableEq, Repr

/-- The state visible to a seller-gateway operation: the session store it
authenticates against and the product database it orchestrates. -/
structure WorldState where
  sessions : SessionStore
  product_db : StoreState
deriving DecidableEq, Repr

/-- The seller gateway's ChangeItemPrice arm: validate the session as Seller,
fetch the item, reject with "Not your item" when the actor does not own it,
otherwise overwrite `sale_price` and submit an UpdateItem. -/
def change_item_price (w : WorldState) (now : Int) (session_id : Nat) (item_id : Nat)
    (new_price : Rat) : SellerResponse × WorldState :=
  match validate_session w.sessions now session_id UserType.Seller with
  | (Except.error e, sessions') => (.Error e, { w with sessions := sessions' })
  | (Except.ok session, sessions') =>
      let w1 := { w with sessions := sessions' }
      match handle_request (.GetItem item_id) w1.product_db with
      | (.ItemResp (some item), db1) =>
          let w2 := { w1 with product_db := db1 }
          if item.seller_id ≠ session.user_id then
            (.Error "Not your item", w2)
          else
            match handle_request (.UpdateItem { item with sale_price := new_price })
                w2.product_db with
            | (.ItemUpdated, db2) => (.ChangeItemPrice, { w2 with product_db := db2 })
            | (.Error msg, db2) => (.Error msg, { w2 with product_db := db2 })
            | (_, db2) => (.Error "Failed to update price", { w2 with product_db := db2 })
      | (.ItemResp none, db1) => (.Error "Item not found", { w1 with product_db := db1 })
      | (.Error msg, db1) => (.Error msg, { w1 with product_db := db1 })
      | (_, db1) => (.Error "Failed to get item", { w1 with product_db := db1 })

/-- The seller gateway's UpdateUnitsForSale arm: identical pattern to
`change_item_price`, mutating `quantity` instead of `sale_price`. -/
def update_units_for_sale (w : WorldState) (now : Int) (session_id : Nat) (item_id : Nat)
    (quantity : Int) : SellerResponse × WorldState :=
  match validate_session w.sessions now session_id UserType.Seller with
  | (Except.error e, sessions') => (.Error e, { w with sessions := sessions' })
  | (Except.ok session, sessions') =>
      let w1 := { w with sessions := sessions' }
      match handle_request (.GetItem item_id) w1.product_db with
      | (.ItemResp (some item), db1) =>
          let w2 := { w1 with product_db := db1 }
          if item.seller_id ≠ session.user_id then
            (.Error "Not your item", w2)
          else
            match handle_request (.UpdateItem { item with quantity := quantity })
                w2.product_db with
            | (.ItemUpdated, db2) => (.UpdateUnitsForSale, { w2 with product_db := db2 })
            | (.Error msg, db2) => (.Error msg, { w2 with product_db := db2 })
            | (_, db2) => (.Error "Failed to update quantity", { w2 with product_db := db2 })
      | (.ItemResp none, db1) => (.Error "Item not found", { w1 with product_db := db1 })
      | (.Error msg, db1) => (.Error msg, { w1 with product_db := db1 })
      | (_, db1) => (.Error "Failed to get item", { w1 with product_db := db1 })

/-! ### Derived predicates and sample data -/

/-- Requests that only touch carts or purchase history (the operations of the
frame claim about the `quantity` field). -/
def isCartOp : ProductDbRequest → Bool
  | .AddToCart _ _ _ => true
  | .RemoveFromCart _ _ _ => true
  | .GetCart _ => true
  | .SaveCart _ _ => true
  | .ClearCart _ => true
  | .AddPurchaseHistory _ _ => true
  | .GetPurchaseHistory _ => true
  | _ => false

/-- The cart invariant of the data model: every line strictly positive and at
most one line per distinct item id. -/
def cartInv (s : StoreState) : Prop :=
  ∀ p ∈ s.carts, (∀ ci ∈ p.2, 0 < ci.quantity) ∧ (p.2.map CartItem.item_id).Nodup

/-- Requests whose cart payloads respect the data model: AddToCart carries a
strictly positive quantity and SaveCart stores a cart that itself satisfies
the invariant. -/
def goodOp : ProductDbRequest → Prop
  | .AddToCart _ _ q => 0 < q
  | .SaveCart _ cart => (∀ ci ∈ cart, 0 < ci.quantity) ∧ (cart.map CartItem.item_id).Nodup
  | _ => True

/-- Every item id stored in either secondary index has a record in the primary
item map. -/
def indexedIdsExist (s : StoreState) : Prop :=
  (∀ p ∈ s.seller_items, ∀ j ∈ p.2, (alookup j s.items).isSome = true) ∧
  (∀ p ∈ s.category_items, ∀ j ∈ p.2, (alookup j s.items).isSome = true)

/-- A concrete item used by witnesses and counterexamples. -/
def sampleItem : Item :=
  { item_id := 1, item_name := "Widget", item_category := 3,
    keywords := ["red", "small"], condition := Condition.New,
    sale_price := 10, quantity := 5, feedback := ⟨0, 0⟩, seller_id := 42 }

/-! ### Association-list lemmas -/

section AListLemmas

variable {α : Type} {β : Type} [DecidableEq α]

theorem alookup_ainsert (k j : α) (v : β) (l : List (α × β)) :
    alookup j (ainsert k v l) = if k = j then some v else alookup j l := by
  induction l with
  | nil =>
      by_cases h : k = j <;> simp [ainsert, alookup, h]
  | cons p rest ih =>
      obtain ⟨k', v'⟩ := p
      by_cases hk : k' = k
      · subst hk
        by_cases hj : k' = j <;> simp [ainsert, alookup, hj]
      · by_cases hj : k' = j
        · subst hj
          have : ¬ k = k' := fun h => hk h.symm
          simp [ainsert, alookup, hk, this]
        · simp [ainsert, alookup, hk, hj, ih]

theorem ainsert_lookup_eq (k : α) (v : β) (l : List (α × β))
    (h : alookup k l = some v) : ainsert k v l = l := by
  induction l with
  | nil => simp [alookup] at h
  | cons p rest ih =>
      obtain ⟨k', v'⟩ := p
      by_cases hk : k' = k
      · subst hk
        simp [alookup] at h
        simp [ainsert, h]
      · simp [alookup, hk] at h
        simp [ainsert, hk, ih h]

theorem alookup_aupd_self (k : α) (d : β) (f : β → β) (l : List (α × β)) :
    alookup k (aupd k d f l) = some (f ((alookup k l).getD d)) := by
  induction l with
  | nil => simp [aupd, alookup]
  | cons p rest ih =>
      obtain ⟨k', v'⟩ := p
      by_cases hk : k' = k
      · subst hk
        simp [aupd, alookup]
      · simp [aupd, alookup, hk, ih]

theorem alookup_aupd_ne (k j : α) (d : β) (f : β → β) (l : List (α × β))
    (h : k ≠ j) : alookup j (aupd k d f l) = alookup j l := by
  induction l with
  | nil =>
      have : ¬ k = j := h
      simp [aupd, alookup, this]
  | cons p rest ih =>
      obtain ⟨k', v'⟩ := p
      by_cases hk : k' = k
      · subst hk
        have : ¬ k' = j := h
        simp [aupd, alookup, this, ih]
      · have hjk : ¬ j = k := fun hh => h hh.symm
        by_cases hj : k' = j <;> simp [aupd, alookup, hk, hj, hjk, ih]

theorem mem_ainsert {p : α × β} {k : α} {v : β} {l : List (α × β)}
    (h : p ∈ ainsert k v l) : p = (k, v) ∨ p ∈ l := by
  induction l with
  | nil => simpa [ainsert] using h
  | cons q rest ih =>
      obtain ⟨k', v'⟩ := q
      by_cases hk : k' = k
      · subst hk
        simp [ainsert] at h
        rcases h with h | h
        · exact Or.inl (by simp [h])
        · exact Or.inr (by simp [h])
      · simp [ainsert, hk] at h
        rcases h with h | h
        · exact Or.inr (by simp [h])
        · rcases ih h with h' | h'
          · exact Or.inl h'
          · exact Or.inr (by simp [h'])

theorem mem_aremove {p : α × β} {k : α} {l : List (α × β)}
    (h : p ∈ aremove k l) : p ∈ l := by
  induction l with
  | nil => simp [aremove] at h
  | cons q rest ih =>
      obtain ⟨k', v'⟩ := q
      by_cases hk : k' = k
      · subst hk
        simp [aremove] at h
        simp [h]
      · simp [aremove, hk] at h
        rcases h with h | h
        · simp [h]
        · simp [ih h]

theorem mem_aupd {p : α × β} {k : α} {d : β} {f : β → β} {l : List (α × β)}
    (h : p ∈ aupd k d f l) :
    p ∈ l ∨ ∃ v, p = (k, f v) ∧ (v = d ∨ alookup k l = some v) := by
  induction l with
  | nil =>
      simp [aupd] at h
      exact Or.inr ⟨d, by simp [h], Or.inl rfl⟩
  | cons q rest ih =>
      obtain ⟨k', v'⟩ := q
      by_cases hk : k' = k
      · subst hk
        simp [aupd] at h
        rcases h with h | h
        · exact Or.inr ⟨v', by simp [h], Or.inr (by simp [alookup])⟩
        · exact Or.inl (by simp [h])
      · simp [aupd, hk] at h
        rcases h with h | h
        · exact Or.inl (by simp [h])
        · rcases ih h with h' | ⟨v, hv, hv'⟩
          · exact Or.inl (by simp [h'])
          · refine Or.inr ⟨v, hv, ?_⟩
            rcases hv' with hv' | hv'
            · exact Or.inl hv'
            · exact Or.inr (by simp [alookup, hk, hv'])

end AListLemmas

/-! ### Cart-line lemmas -/

theorem addToCartLine_pos {cart : List CartItem} {item_id : Nat} {q : Int}
    (hcart : ∀ ci ∈ cart, 0 < ci.quantity) (hq : 0 < q) :
    ∀ ci ∈ addToCartLine item_id q cart, 0 < ci.quantity := by
  induction cart with
  | nil =>
      intro ci hci
      simp [addToCartLine] at hci
      simp [hci, hq]
  | cons c rest ih =>
      intro ci hci
      by_cases hc : c.item_id = item_id
      · simp [addToCartLine, hc] at hci
        rcases hci with hci | hci
        · have hcpos : 0 < c.quantity := hcart c (by simp)
          simp [hci]
          omega
        · exact hcart ci (by simp [hci])
      · simp [addToCartLine, hc] at hci
        rcases hci with hci | hci
        · exact hcart ci (by simp [hci])
        · exact ih (fun x hx => hcart x (by simp [hx])) ci hci

theorem mem_ids_addToCartLine {cart : List CartItem} {item_id : Nat} {q : Int} {x : Nat}
    (h : x ∈ (addToCartLine item_id q cart).map CartItem.item_id) :
    x = item_id ∨ x ∈ cart.map CartItem.item_id := by
  induction cart with
  | nil =>
      simp [addToCartLine] at h
      exact Or.inl h
  | cons c rest ih =>
      by_cases hc : c.item_id = item_id
      · simp [addToCartLine, hc] at h
        rcases h with h | h
        · exact Or.inl (by simp [h, hc])
        · exact Or.inr (by simp [h])
      · simp [addToCartLine, hc] at h
        rcases h with h | h
        · exact Or.inr (by simp [h])
        · rcases ih (by simpa using h) with h' | h'
          · exact Or.inl h'
          · exact Or.inr (by simp [h'])

theorem addToCartLine_nodup {cart : List CartItem} {item_id : Nat} {q : Int}
    (h : (cart.map CartItem.item_id).Nodup) :
    ((addToCartLine item_id q cart).map CartItem.item_id).Nodup := by
  induction cart with
  | nil => simp [addToCartLine]
  | cons c rest ih =>
      rw [List.map_cons, List.nodup_cons] at h
      by_cases hc : c.item_id = item_id
      · have hdef : addToCartLine item_id q (c :: rest) =
            { c with quantity := c.quantity + q } :: rest := by
          simp [addToCartLine, hc]
        rw [hdef, List.map_cons, List.nodup_cons]
        exact ⟨h.1, h.2⟩
      · have hdef : addToCartLine item_id q (c :: rest) =
            c :: addToCartLine item_id q rest := by
          simp [addToCartLine, hc]
        rw [hdef, List.map_cons, List.nodup_cons]
        refine ⟨?_, ih h.2⟩
        intro hmem
        rcases mem_ids_addToCartLine hmem with h' | h'
        · exact hc h'
        · exact h.1 h'

theorem removeFromCartLine_ids_sublist (item_id : Nat) (q : Int) (cart : List CartItem) :
    ((removeFromCartLine item_id q cart).map CartItem.item_id).Sublist
      (cart.map CartItem.item_id) := by
  induction cart with
  | nil => simp [removeFromCartLine]
  | cons c rest ih =>
      by_cases hc : c.item_id = item_id
      · by_cases hq : c.quantity ≤ q
        · have hdef : removeFromCartLine item_id q (c :: rest) = rest := by
            simp [removeFromCartLine, hc, hq]
          rw [hdef, List.map_cons]
          exact List.sublist_cons_self _ _
        · have hdef : removeFromCartLine item_id q (c :: rest) =
              { c with quantity := c.quantity - q } :: rest := by
            simp [removeFromCartLine, hc, hq]
          rw [hdef, List.map_cons, List.map_cons]
      · have hdef : removeFromCartLine item_id q (c :: rest) =
            c :: removeFromCartLine item_id q rest := by
          simp [removeFromCartLine, hc]
        rw [hdef, List.map_cons, List.map_cons]
        exact ih.cons₂ _

theorem removeFromCartLine_pos {cart : List CartItem} {item_id : Nat} {q : Int}
    (hcart : ∀ ci ∈ cart, 0 < ci.quantity) :
    ∀ ci ∈ removeFromCartLine item_id q cart, 0 < ci.quantity := by
  induction cart with
  | nil => simp [removeFromCartLine]
  | cons c rest ih =>
      intro ci hci
      by_cases hc : c.item_id = item_id
      · by_cases hq : c.quantity ≤ q
        · simp [removeFromCartLine, hc, hq] at hci
          exact hcart ci (by simp [hci])
        · simp [removeFromCartLine, hc, hq] at hci
          rcases hci with hci | hci
          · simp [hci]
            omega
          · exact hcart ci (by simp [hci])
      · simp [removeFromCartLine, hc] at hci
        rcases hci with hci | hci
        · exact hcart ci (by simp [hci])
        · exact ih (fun x hx => hcart x (by simp [hx])) ci hci

theorem addToCartLine_of_not_mem {cart : List CartItem} {item_id : Nat} {q : Int}
    (h : ∀ ci ∈ cart, ci.item_id ≠ item_id) :
    addToCartLine item_id q cart = cart ++ [{ item_id := item_id, quantity := q }] := by
  induction cart with
  | nil => simp [addToCartLine]
  | cons c rest ih =>
      have hc : c.item_id ≠ item_id := h c (by simp)
      simp [addToCartLine, hc]
      exact ih fun x hx => h x (by simp [hx])

/-! ### Search lemmas -/

theorem mem_insertByRank {kws : List String} {a b : Item} {l : List Item} :
    b ∈ insertByRank kws a l ↔ b = a ∨ b ∈ l := by
  induction l with
  | nil => simp [insertByRank]
  | cons c rest ih =>
      by_cases hlt : matchCount kws c < matchCount kws a
      · simp [insertByRank, hlt]
      · simp [insertByRank, hlt, ih]
        tauto

theorem mem_sortByRank {kws : List String} {b : Item} {l : List Item} :
    b ∈ sortByRank kws l ↔ b ∈ l := by
  induction l with
  | nil => simp [sortByRank]
  | cons c rest ih =>
      simp [sortByRank, mem_insertByRank, ih]

theorem kwMatch_sound {kws : List String} {item : Item} (h : kwMatch kws item = true) :
    ∀ kw ∈ kws, kw ∈ item.keywords := by
  intro kw hkw
  rcases Bool.or_eq_true_iff.mp h with h' | h'
  · rw [List.isEmpty_iff] at h'
    subst h'
    simp at hkw
  · have := List.all_eq_true.mp h' kw hkw
    exact of_decide_eq_true this

theorem kwMatch_mono {k : String} {kws : List String} {item : Item}
    (h : kwMatch (k :: kws) item = true) : kwMatch kws item = true := by
  have hall : ∀ kw ∈ k :: kws, kw ∈ item.keywords :=
    kwMatch_sound h
  unfold kwMatch
  refine Bool.or_eq_true_iff.mpr (Or.inr ?_)
  exact List.all_eq_true.mpr fun kw hkw => decide_eq_true (hall kw (by simp [hkw]))

theorem addToCartLine_append_single {cart : List CartItem} {item_id : Nat} {q q' : Int}
    (h : ∀ ci ∈ cart, ci.item_id ≠ item_id) :
    addToCartLine item_id q' (cart ++ [{ item_id := item_id, quantity := q }]) =
      cart ++ [{ item_id := item_id, quantity := q + q' }] := by
  induction cart with
  | nil => simp [addToCartLine]
  | cons c rest ih =>
      have hc : c.item_id ≠ item_id := h c (by simp)
      simp [addToCartLine, hc]
      exact ih fun x hx => h x (by simp [hx])

/-! ### C1: session-validation characterization -/

/-- C1, counterexample: the claim requires validation to succeed only when the
session's expiration is strictly in the future, but at `expiration = now = 100`
the gateways' `validate_session` succeeds (the code tests `expiration < now`),
so the claim's "only if" direction is false at this concrete input. -/
theorem validate_session_boundary_counterexample :
    (validate_session [(1, (⟨1, 7, UserType.Buyer, 100⟩ : Session))]
        100 1 UserType.Buyer).1 = Except.ok (⟨1, 7, UserType.Buyer, 100⟩ : Session) ∧
    ¬ ((100 : Int) < (100 : Int)) := by
  constructor
  · rfl
  · decide

/-- C1, amended: session validation succeeds (yielding the stored session) iff
the session exists, its expiration is not earlier than the current time, and
its role matches; otherwise it fails with exactly one of "Session not found",
"Session expired", "Invalid session type", by the precedence existence first,
then expiry, then role. -/
theorem validate_session_characterization (store : SessionStore) (now : Int)
    (sid : Nat) (role : UserType) :
    (∀ sess, (validate_session store now sid role).1 = Except.ok sess ↔
        alookup sid store = some sess ∧ now ≤ sess.expiration ∧ sess.user_type = role)
    ∧ ((validate_session store now sid role).1 = Except.error "Session not found" ↔
        alookup sid store = none)
    ∧ ((validate_session store now sid role).1 = Except.error "Session expired" ↔
        ∃ sess, alookup sid store = some sess ∧ sess.expiration < now)
    ∧ ((validate_session store now sid role).1 = Except.error "Invalid session type" ↔
        ∃ sess, alookup sid store = some sess ∧ now ≤ sess.expiration ∧ sess.user_type ≠ role) := by
  cases hs : alookup sid store with
  | none =>
      have hres : (validate_session store now sid role).1 = Except.error "Session not found" := by
        simp [validate_session, hs]
      rw [hres]
      exact ⟨fun sess => by simp, by simp, by simp, by simp⟩
  | some session =>
      by_cases hexp : session.expiration < now
      · have hres : (validate_session store now sid role).1 = Except.error "Session expired" := by
          simp [validate_session, hs, hexp]
        rw [hres]
        refine ⟨fun sess => ?_, ?_, ?_, ?_⟩
        · constructor
          · intro h
            simp at h
          · rintro ⟨h1, h2, -⟩
            obtain rfl := Option.some_inj.mp h1
            omega
        · constructor
          · intro h
            injection h with h'
            exact absurd h' (by decide)
          · intro h
            simp at h
        · exact ⟨fun _ => ⟨session, rfl, hexp⟩, fun _ => rfl⟩
        · constructor
          · intro h
            injection h with h'
            exact absurd h' (by decide)
          · rintro ⟨sess, h1, h2, -⟩
            obtain rfl := Option.some_inj.mp h1
            omega
      · by_cases hrole : session.user_type = role
        · have hres : (validate_session store now sid role).1 = Except.ok session := by
            simp [validate_session, hs, hexp, hrole]
          rw [hres]
          refine ⟨fun sess => ?_, ?_, ?_, ?_⟩
          · constructor
            · intro h
              obtain rfl : session = sess := by simpa using h
              exact ⟨rfl, by omega, hrole⟩
            · rintro ⟨h1, -, -⟩
              obtain rfl := Option.some_inj.mp h1
              rfl
          · constructor
            · intro h
              simp at h
            · intro h
              simp at h
          · constructor
            · intro h
              simp at h
            · rintro ⟨sess, h1, h2⟩
              obtain rfl := Option.some_inj.mp h1
              omega
          · constructor
            · intro h
              simp at h
            · rintro ⟨sess, h1, -, h3⟩
              obtain rfl := Option.some_inj.mp h1
              exact absurd hrole h3
        · have hres : (validate_session store now sid role).1 =
              Except.error "Invalid session type" := by
            simp [validate_session, hs, hexp, hrole]
          rw [hres]
          refine ⟨fun sess => ?_, ?_, ?_, ?_⟩
          · constructor
            · intro h
              simp at h
            · rintro ⟨h1, -, h3⟩
              obtain rfl := Option.some_inj.mp h1
              exact absurd h3 hrole
          · constructor
            · intro h
              injection h with h'
              exact absurd h' (by decide)
            · intro h
              simp at h
          · constructor
            · intro h
              injection h with h'
              exact absurd h' (by decide)
            · rintro ⟨sess, h1, h2⟩
              obtain rfl := Option.some_inj.mp h1
              omega
          · exact ⟨fun _ => ⟨session, rfl, by omega, hrole⟩, fun _ => rfl⟩

/-- C1, witness: the amended characterization applied to a concrete store
containing one live buyer session. -/
theorem validate_session_characterization_witness :
    (validate_session [(1, (⟨1, 7, UserType.Buyer, 100⟩ : Session))]
        50 1 UserType.Buyer).1 = Except.ok (⟨1, 7, UserType.Buyer, 100⟩ : Session) :=
  ((validate_session_characterization [(1, (⟨1, 7, UserType.Buyer, 100⟩ : Session))]
      50 1 UserType.Buyer).1 (⟨1, 7, UserType.Buyer, 100⟩ : Session)).mpr
    ⟨by decide, by decide, rfl⟩

/-! ### C8: UpdateItem frame property -/

/-- C8: UpdateItem overwrites only the primary-map record at the item's
identity: the seller index, the category index, all carts, all purchase
histories, and every other item's record are unchanged. -/
theorem update_item_frame (s : StoreState) (item : Item) :
    (handle_request (.UpdateItem item) s).1 = ProductDbResponse.ItemUpdated
    ∧ ((handle_request (.UpdateItem item) s).2).seller_items = s.seller_items
    ∧ ((handle_request (.UpdateItem item) s).2).category_items = s.category_items
    ∧ ((handle_request (.UpdateItem item) s).2).carts = s.carts
    ∧ ((handle_request (.UpdateItem item) s).2).purchase_history = s.purchase_history
    ∧ alookup item.item_id ((handle_request (.UpdateItem item) s).2).items = some item
    ∧ ∀ j, j ≠ item.item_id →
        alookup j ((handle_request (.UpdateItem item) s).2).items = alookup j s.items := by
  refine ⟨rfl, rfl, rfl, rfl, rfl, ?_, ?_⟩
  · show alookup item.item_id (ainsert item.item_id item s.items) = some item
    rw [alookup_ainsert, if_pos rfl]
  · intro j hj
    show alookup j (ainsert item.item_id item s.items) = alookup j s.items
    rw [alookup_ainsert, if_neg fun h => hj h.symm]

/-- C8, witness: the frame property applied to an update of `sampleItem` on a
store already holding a different record, with the other-id component
discharged at id 9. -/
theorem update_item_frame_witness :
    (handle_request (.UpdateItem sampleItem) ({ emptyStore with
        items := [(9, { sampleItem with item_id := 9 })] })).1 =
      ProductDbResponse.ItemUpdated ∧
    alookup 9 ((handle_request (.UpdateItem sampleItem) ({ emptyStore with
        items := [(9, { sampleItem with item_id := 9 })] })).2).items =
      alookup 9 ({ emptyStore with
        items := [(9, { sampleItem with item_id := 9 })] } : StoreState).items :=
  ⟨(update_item_frame ({ emptyStore with
        items := [(9, { sampleItem with item_id := 9 })] }) sampleItem).1,
   (update_item_frame ({ emptyStore with
        items := [(9, { sampleItem with item_id := 9 })] }) sampleItem).2.2.2.2.2.2 9
     (by decide)⟩

/-! ### C2: an item is visible by id, seller index, and category index after creation -/

/-- C2: once CreateItem returns the fresh id, GetItem on that id returns the
item, GetItemsBySeller for its seller includes it, and SearchItems restricted
to its category with no keywords includes it. -/
theorem create_item_visible (s : StoreState) (item : Item) :
    (handle_request (.CreateItem item) s).1 = ProductDbResponse.ItemCreated s.next_id
    ∧ (handle_request (.GetItem s.next_id) (handle_request (.CreateItem item) s).2).1 =
        ProductDbResponse.ItemResp (some { item with item_id := s.next_id })
    ∧ (∀ l, (handle_request (.GetItemsBySeller item.seller_id)
          (handle_request (.CreateItem item) s).2).1 = ProductDbResponse.Items l →
        { item with item_id := s.next_id } ∈ l)
    ∧ (∀ l, (handle_request (.SearchItems (some item.item_category) [])
          (handle_request (.CreateItem item) s).2).1 = ProductDbResponse.Items l →
        { item with item_id := s.next_id } ∈ l) := by
  set s' := (handle_request (.CreateItem item) s).2 with hs'
  have hitems : s'.items = ainsert s.next_id { item with item_id := s.next_id } s.items := rfl
  have hseller : s'.seller_items = aupd item.seller_id [] (fun l => l ++ [s.next_id]) s.seller_items := rfl
  have hcat : s'.category_items =
      aupd item.item_category [] (fun l => l ++ [s.next_id]) s.category_items := rfl
  have hlook : alookup s.next_id s'.items = some { item with item_id := s.next_id } := by
    rw [hitems, alookup_ainsert, if_pos rfl]
  refine ⟨rfl, ?_, ?_, ?_⟩
  · show ProductDbResponse.ItemResp (alookup s.next_id s'.items) = _
    rw [hlook]
  · intro l hl
    have hids : alookup item.seller_id s'.seller_items =
        some (((alookup item.seller_id s.seller_items).getD []) ++ [s.next_id]) := by
      rw [hseller, alookup_aupd_self]
    have hresp : (handle_request (.GetItemsBySeller item.seller_id) s').1 =
        ProductDbResponse.Items (((alookup item.seller_id s'.seller_items).getD []).filterMap
          (fun i => alookup i s'.items)) := rfl
    rw [hresp, hids, Option.getD_some] at hl
    obtain rfl := ProductDbResponse.Items.inj hl
    refine List.mem_filterMap.mpr ⟨s.next_id, ?_, hlook⟩
    simp
  · intro l hl
    have hids : alookup item.item_category s'.category_items =
        some (((alookup item.item_category s.category_items).getD []) ++ [s.next_id]) := by
      rw [hcat, alookup_aupd_self]
    have hresp : (handle_request (.SearchItems (some item.item_category) []) s').1 =
        ProductDbResponse.Items (sortByRank []
          ((((alookup item.item_category s'.category_items).getD []).filterMap
            (fun i => alookup i s'.items)).filter (kwMatch []))) := rfl
    rw [hresp, hids, Option.getD_some] at hl
    obtain rfl := ProductDbResponse.Items.inj hl
    rw [mem_sortByRank]
    refine List.mem_filter.mpr ⟨?_, by simp [kwMatch]⟩
    refine List.mem_filterMap.mpr ⟨s.next_id, ?_, hlook⟩
    simp

/-- C2, witness: visibility applied to creating `sampleItem` in the empty
store, with the seller-index component discharged at the concrete result
list. -/
theorem create_item_visible_witness :
    (handle_request (.GetItem 0) (handle_request (.CreateItem sampleItem) emptyStore).2).1 =
      ProductDbResponse.ItemResp (some { sampleItem with item_id := 0 }) ∧
    { sampleItem with item_id := 0 } ∈ [{ sampleItem with item_id := 0 }] :=
  ⟨(create_item_visible emptyStore sampleItem).2.1,
   (create_item_visible emptyStore sampleItem).2.2.1
     [{ sampleItem with item_id := 0 }] (by decide)⟩

/-! ### C4: cart and purchase operations never adjust item quantities -/

theorem cartOp_preserves_items (op : ProductDbRequest) (s : StoreState)
    (h : isCartOp op = true) : (handle_request op s).2.items = s.items := by
  cases op with
  | AddToCart b i q =>
      simp only [handle_request]
      cases hi : alookup i s.items with
      | none => rfl
      | some item => by_cases hq : item.quantity < q <;> simp [hq]
  | RemoveFromCart b i q =>
      simp only [handle_request]
      cases hc : alookup b s.carts <;> rfl
  | GetCart b => rfl
  | SaveCart b cart => rfl
  | ClearCart b => rfl
  | AddPurchaseHistory b i => rfl
  | GetPurchaseHistory b => rfl
  | CreateItem item => simp [isCartOp] at h
  | UpdateItem item => simp [isCartOp] at h
  | GetItem i => simp [isCartOp] at h
  | GetItemsBySeller sid => simp [isCartOp] at h
  | SearchItems cat kws => simp [isCartOp] at h

theorem cartOps_preserve_items (ops : List ProductDbRequest) (s : StoreState)
    (h : ∀ op ∈ ops, isCartOp op = true) : (applyOps ops s).items = s.items := by
  induction ops generalizing s with
  | nil => rfl
  | cons op rest ih =>
      have h1 : isCartOp op = true := h op (by simp)
      have h2 : ∀ o ∈ rest, isCartOp o = true := fun o ho => h o (by simp [ho])
      show (applyOps rest (handle_request op s).2).items = s.items
      rw [ih _ h2, cartOp_preserves_items op s h1]

/-- C4: every sequence of cart and purchase-history operations leaves the
primary item map (hence every item's `quantity` field) unchanged; in
particular, adding 3 units of a quantity-5 item succeeds twice in a row,
because the check compares against the static recorded quantity. -/
theorem quantity_never_decremented :
    (∀ (ops : List ProductDbRequest) (s : StoreState),
        (∀ op ∈ ops, isCartOp op = true) → (applyOps ops s).items = s.items)
    ∧ (∀ (s : StoreState) (buyer_id item_id : Nat) (item : Item),
        alookup item_id s.items = some item → item.quantity = 5 →
        (handle_request (.AddToCart buyer_id item_id 3) s).1 = ProductDbResponse.CartSaved ∧
        (handle_request (.AddToCart buyer_id item_id 3)
            (handle_request (.AddToCart buyer_id item_id 3) s).2).1 =
          ProductDbResponse.CartSaved) := by
  refine ⟨cartOps_preserve_items, ?_⟩
  intro s buyer_id item_id item hlook hq
  have hnotlt : ¬ item.quantity < 3 := by
    rw [hq]
    decide
  have hstep : ∀ t : StoreState, alookup item_id t.items = some item →
      (handle_request (.AddToCart buyer_id item_id 3) t).1 = ProductDbResponse.CartSaved := by
    intro t ht
    simp only [handle_request]
    rw [ht]
    simp [hnotlt]
  have hitems : (handle_request (.AddToCart buyer_id item_id 3) s).2.items = s.items :=
    cartOp_preserves_items _ s rfl
  exact ⟨hstep s hlook, hstep _ (by rw [hitems]; exact hlook)⟩

/-- C4, witness: the frame component applied to a ClearCart sequence on the
empty store, and the double-add scenario discharged on a one-item store. -/
theorem quantity_never_decremented_witness :
    (applyOps [.ClearCart 0] emptyStore).items = emptyStore.items ∧
    (handle_request (.AddToCart 7 1 3) ({ emptyStore with
        items := [(1, sampleItem)] })).1 = ProductDbResponse.CartSaved :=
  ⟨quantity_never_decremented.1 [.ClearCart 0] emptyStore (by decide),
   (quantity_never_decremented.2 ({ emptyStore with items := [(1, sampleItem)] })
      7 1 sampleItem (by decide) (by decide)).1⟩

/-! ### C5: RemoveFromCart law -/

theorem removeFromCartLine_of_not_mem {cart : List CartItem} {item_id : Nat} {q : Int}
    (h : ∀ ci ∈ cart, ci.item_id ≠ item_id) :
    removeFromCartLine item_id q cart = cart := by
  induction cart with
  | nil => rfl
  | cons c rest ih =>
      have hc : c.item_id ≠ item_id := h c (by simp)
      simp [removeFromCartLine, hc]
      exact ih fun x hx => h x (by simp [hx])

theorem removeFromCartLine_first {pre rest : List CartItem} {item_id : Nat} {c q : Int}
    (hpre : ∀ ci ∈ pre, ci.item_id ≠ item_id) :
    removeFromCartLine item_id q (pre ++ { item_id := item_id, quantity := c } :: rest) =
      if c ≤ q then pre ++ rest
      else pre ++ { item_id := item_id, quantity := c - q } :: rest := by
  induction pre with
  | nil =>
      by_cases hq : c ≤ q <;> simp [removeFromCartLine, hq]
  | cons p pre' ih =>
      have hp : p.item_id ≠ item_id := hpre p (by simp)
      have := ih fun x hx => hpre x (by simp [hx])
      by_cases hq : c ≤ q <;> simp [removeFromCartLine, hp, hq] <;>
        simpa [hq] using this

/-- C5: RemoveFromCart always answers CartSaved; a missing cart or missing
line leaves the state unchanged; a present line (the first line for the item,
with the part of the cart before it containing no line for the item) is
deleted when its quantity is at most the removal and decremented otherwise,
with everything else unchanged. -/
theorem remove_from_cart_law (s : StoreState) (buyer_id item_id : Nat) (q : Int) :
    (handle_request (.RemoveFromCart buyer_id item_id q) s).1 = ProductDbResponse.CartSaved
    ∧ (alookup buyer_id s.carts = none →
        (handle_request (.RemoveFromCart buyer_id item_id q) s).2 = s)
    ∧ (∀ cart, alookup buyer_id s.carts = some cart →
        ((∀ ci ∈ cart, ci.item_id ≠ item_id) →
            (handle_request (.RemoveFromCart buyer_id item_id q) s).2 = s)
        ∧ (∀ pre (c : Int) rest,
            cart = pre ++ { item_id := item_id, quantity := c } :: rest →
            (∀ ci ∈ pre, ci.item_id ≠ item_id) →
            (c ≤ q →
              (handle_request (.RemoveFromCart buyer_id item_id q) s).2 =
                { s with carts := ainsert buyer_id (pre ++ rest) s.carts })
            ∧ (q < c →
              (handle_request (.RemoveFromCart buyer_id item_id q) s).2 =
                { s with
                  carts := ainsert buyer_id
                    (pre ++ { item_id := item_id, quantity := c - q } :: rest)
                    s.carts }))) := by
  refine ⟨?_, ?_, ?_⟩
  · simp only [handle_request]
    cases hc : alookup buyer_id s.carts <;> rfl
  · intro hnone
    simp only [handle_request]
    rw [hnone]
  · intro cart hcart
    have hred : (handle_request (.RemoveFromCart buyer_id item_id q) s).2 =
        { s with carts := ainsert buyer_id (removeFromCartLine item_id q cart) s.carts } := by
      simp only [handle_request]
      rw [hcart]
    constructor
    · intro hno
      rw [hred, removeFromCartLine_of_not_mem hno, ainsert_lookup_eq _ _ _ hcart]
    · intro pre c rest hsplit hpre
      constructor
      · intro hcq
        rw [hred, hsplit, removeFromCartLine_first hpre, if_pos hcq]
      · intro hqc
        rw [hred, hsplit, removeFromCartLine_first hpre, if_neg (by omega)]

/-- C5, witness: the law applied to a buyer whose cart holds one line of 5
units, removing 2 (decrement) from it. -/
theorem remove_from_cart_law_witness :
    (handle_request (.RemoveFromCart 7 1 2) ({ emptyStore with
        carts := [(7, [{ item_id := 1, quantity := 5 }])] })).2 =
      { ({ emptyStore with carts := [(7, [{ item_id := 1, quantity := 5 }])] } : StoreState) with
        carts := ainsert 7 ([] ++ { item_id := 1, quantity := 3 } :: []) ([(7, [{ item_id := 1, quantity := 5 }])]) } := by
  have h := ((remove_from_cart_law ({ emptyStore with
      carts := [(7, [{ item_id := 1, quantity := 5 }])] }) 7 1 2).2.2
    [{ item_id := 1, quantity := 5 }] rfl).2 [] 5 [] rfl (by simp)
  exact (by simpa using h.2 (by decide))

/-! ### C3: cart merge law -/

/-- C3, counterexample: starting from a store state in which buyer 7's cart
already holds 1 unit of item 1 (listed quantity 5), adding q1 = 1 and then
q2 = 1 (each within the listed quantity) yields a single line of quantity 3,
not q1 + q2 = 2, so the claim fails for this store state. -/
theorem add_to_cart_merge_counterexample :
    alookup 7 ((handle_request (.AddToCart 7 1 1)
        (handle_request (.AddToCart 7 1 1)
          ({ emptyStore with
             items := [(1, sampleItem)],
             carts := [(7, [{ item_id := 1, quantity := 1 }])] })).2).2).carts =
      some [{ item_id := 1, quantity := 3 }] ∧
    ¬ ((3 : Int) = 1 + 1) := by
  constructor
  · rfl
  · decide

theorem addToCart_step (s : StoreState) (b i : Nat) (q : Int) (item : Item)
    (hi : alookup i s.items = some item) (hq : ¬ item.quantity < q) :
    handle_request (.AddToCart b i q) s =
      (ProductDbResponse.CartSaved,
        { s with carts := aupd b [] (addToCartLine i q) s.carts }) := by
  simp only [handle_request]
  rw [hi]
  simp [hq]

/-- C3, amended: adding q1 then q2 of the same item (each within the item's
listed quantity) yields exactly one cart line for that item, of quantity
q1 + q2, provided the buyer's cart initially contains no line for that
item. -/
theorem add_to_cart_merge (s : StoreState) (buyer_id item_id : Nat) (q1 q2 : Int)
    (item : Item) (hitem : alookup item_id s.items = some item)
    (h1 : q1 ≤ item.quantity) (h2 : q2 ≤ item.quantity)
    (hfresh : ∀ ci ∈ (alookup buyer_id s.carts).getD [], ci.item_id ≠ item_id) :
    (handle_request (.AddToCart buyer_id item_id q1) s).1 = ProductDbResponse.CartSaved
    ∧ (handle_request (.AddToCart buyer_id item_id q2)
        (handle_request (.AddToCart buyer_id item_id q1) s).2).1 = ProductDbResponse.CartSaved
    ∧ alookup buyer_id ((handle_request (.AddToCart buyer_id item_id q2)
          (handle_request (.AddToCart buyer_id item_id q1) s).2).2).carts =
        some (((alookup buyer_id s.carts).getD []) ++
          [({ item_id := item_id, quantity := q1 + q2 } : CartItem)])
    ∧ (((alookup buyer_id s.carts).getD []) ++
          [({ item_id := item_id, quantity := q1 + q2 } : CartItem)]).filter
        (fun ci => decide (ci.item_id = item_id)) =
      [({ item_id := item_id, quantity := q1 + q2 } : CartItem)] := by
  have hlt1 : ¬ item.quantity < q1 := by omega
  have hlt2 : ¬ item.quantity < q2 := by omega
  have hstep1 := addToCart_step s buyer_id item_id q1 item hitem hlt1
  have hitems1 : (handle_request (.AddToCart buyer_id item_id q1) s).2.items = s.items :=
    cartOp_preserves_items _ s rfl
  have hitem1 : alookup item_id (handle_request (.AddToCart buyer_id item_id q1) s).2.items =
      some item := by rw [hitems1]; exact hitem
  have hstep2 := addToCart_step ((handle_request (.AddToCart buyer_id item_id q1) s).2)
    buyer_id item_id q2 item hitem1 hlt2
  have hcarts1 : (handle_request (.AddToCart buyer_id item_id q1) s).2.carts =
      aupd buyer_id [] (addToCartLine item_id q1) s.carts := by rw [hstep1]
  have hcart1 : alookup buyer_id (handle_request (.AddToCart buyer_id item_id q1) s).2.carts =
      some (((alookup buyer_id s.carts).getD []) ++
        [({ item_id := item_id, quantity := q1 } : CartItem)]) := by
    rw [hcarts1, alookup_aupd_self, addToCartLine_of_not_mem hfresh]
  refine ⟨by rw [hstep1], by rw [hstep2], ?_, ?_⟩
  · rw [hstep2]
    show alookup buyer_id (aupd buyer_id [] (addToCartLine item_id q2)
        (handle_request (.AddToCart buyer_id item_id q1) s).2.carts) = _
    rw [alookup_aupd_self, hcart1, Option.getD_some,
      addToCartLine_append_single hfresh]
  · rw [List.filter_append]
    have hnil : (((alookup buyer_id s.carts).getD []).filter
        (fun ci => decide (ci.item_id = item_id))) = [] := by
      refine List.filter_eq_nil_iff.mpr ?_
      intro ci hci
      simpa using hfresh ci hci
    rw [hnil]
    simp

/-- C3, witness: the merge law applied to buyer 7 adding 2 then 3 units of
`sampleItem` starting from an empty cart. -/
theorem add_to_cart_merge_witness :
    alookup 7 ((handle_request (.AddToCart 7 1 3)
        (handle_request (.AddToCart 7 1 2)
          ({ emptyStore with items := [(1, sampleItem)] })).2).2).carts =
      some [{ item_id := 1, quantity := 2 + 3 }] := by
  have h := (add_to_cart_merge ({ emptyStore with items := [(1, sampleItem)] })
      7 1 2 3 sampleItem (by decide) (by decide) (by decide) (by simp [alookup])).2.2.1
  simpa using h

/-! ### C6: search soundness and keyword monotonicity -/

theorem mem_search_filter {X : List Item} {kws : List String} {item : Item}
    (h : item ∈ sortByRank kws (X.filter (kwMatch kws))) :
    item ∈ X ∧ kwMatch kws item = true := by
  rw [mem_sortByRank] at h
  exact ⟨(List.mem_filter.mp h).1, (List.mem_filter.mp h).2⟩

theorem mem_search_filter_of {X : List Item} {kws : List String} {item : Item}
    (hX : item ∈ X) (hm : kwMatch kws item = true) :
    item ∈ sortByRank kws (X.filter (kwMatch kws)) := by
  rw [mem_sortByRank]
  exact List.mem_filter.mpr ⟨hX, hm⟩

/-- C6: every item in a SearchItems result contains every required keyword
verbatim in its keyword list, and adding a required keyword to the query never
adds new items to the result set. -/
theorem search_sound_and_monotone (s : StoreState) (cat : Option Int)
    (keywords : List String) (item : Item) :
    (∀ l, (handle_request (.SearchItems cat keywords) s).1 = ProductDbResponse.Items l →
        item ∈ l → ∀ kw ∈ keywords, kw ∈ item.keywords)
    ∧ (∀ (k : String) l' l,
        (handle_request (.SearchItems cat (k :: keywords)) s).1 = ProductDbResponse.Items l' →
        (handle_request (.SearchItems cat keywords) s).1 = ProductDbResponse.Items l →
        item ∈ l' → item ∈ l) := by
  cases cat with
  | none =>
      have hresp : ∀ kws : List String, (handle_request (.SearchItems none kws) s).1 =
          ProductDbResponse.Items (sortByRank kws ((s.items.map Prod.snd).filter (kwMatch kws))) :=
        fun kws => rfl
      constructor
      · intro l hl hmem
        obtain rfl := ProductDbResponse.Items.inj ((hresp keywords).symm.trans hl)
        exact kwMatch_sound (mem_search_filter hmem).2
      · intro k l' l hl' hl hmem
        obtain rfl := ProductDbResponse.Items.inj ((hresp (k :: keywords)).symm.trans hl')
        obtain rfl := ProductDbResponse.Items.inj ((hresp keywords).symm.trans hl)
        obtain ⟨hX, hm⟩ := mem_search_filter hmem
        exact mem_search_filter_of hX (kwMatch_mono hm)
  | some c =>
      have hresp : ∀ kws : List String, (handle_request (.SearchItems (some c) kws) s).1 =
          ProductDbResponse.Items (sortByRank kws
            ((((alookup c s.category_items).getD []).filterMap
              (fun i => alookup i s.items)).filter (kwMatch kws))) :=
        fun kws => rfl
      constructor
      · intro l hl hmem
        obtain rfl := ProductDbResponse.Items.inj ((hresp keywords).symm.trans hl)
        exact kwMatch_sound (mem_search_filter hmem).2
      · intro k l' l hl' hl hmem
        obtain rfl := ProductDbResponse.Items.inj ((hresp (k :: keywords)).symm.trans hl')
        obtain rfl := ProductDbResponse.Items.inj ((hresp keywords).symm.trans hl)
        obtain ⟨hX, hm⟩ := mem_search_filter hmem
        exact mem_search_filter_of hX (kwMatch_mono hm)

/-- C6, witness: soundness applied to searching category 3 for "red" in a
one-item store whose item carries the keyword. -/
theorem search_sound_and_monotone_witness :
    "red" ∈ sampleItem.keywords :=
  (search_sound_and_monotone
      ({ emptyStore with
         items := [(1, sampleItem)],
         category_items := [((3 : Int), [1])] }) (some 3) ["red"] sampleItem).1
    [sampleItem] (by decide) (by decide) "red" (by decide)

/-! ### C7: ownership check on price and quantity updates -/

/-- C7: with a valid Seller session whose user is not the item's owner, both
ChangeItemPrice and UpdateUnitsForSale answer Error "Not your item" and leave
the entire world state — in particular the item's record — unchanged. -/
theorem not_your_item_rejected (w : WorldState) (now : Int) (session_id item_id : Nat)
    (sess : Session) (item : Item) (new_price : Rat) (quantity : Int)
    (hsess : alookup session_id w.sessions = some sess)
    (hexp : ¬ sess.expiration < now)
    (hrole : sess.user_type = UserType.Seller)
    (hitem : alookup item_id w.product_db.items = some item)
    (howner : item.seller_id ≠ sess.user_id) :
    change_item_price w now session_id item_id new_price =
      (SellerResponse.Error "Not your item", w)
    ∧ update_units_for_sale w now session_id item_id quantity =
      (SellerResponse.Error "Not your item", w) := by
  have hval : validate_session w.sessions now session_id UserType.Seller =
      (Except.ok sess, w.sessions) := by
    simp [validate_session, hsess, hexp, hrole]
  have hget : handle_request (.GetItem item_id) w.product_db =
      (ProductDbResponse.ItemResp (some item), w.product_db) := by
    simp only [handle_request]
    rw [hitem]
  constructor
  · simp only [change_item_price]
    rw [hval]
    dsimp only
    rw [hget]
    dsimp only
    rw [if_pos howner]
  · simp only [update_units_for_sale]
    rw [hval]
    dsimp only
    rw [hget]
    dsimp only
    rw [if_pos howner]

/-- C7, witness: seller 99's valid session attempting ChangeItemPrice on
`sampleItem` (owned by seller 42). -/
theorem not_your_item_rejected_witness :
    change_item_price
        ({ sessions := [(5, (⟨5, 99, UserType.Seller, 100⟩ : Session))],
           product_db := { emptyStore with items := [(1, sampleItem)] } }) 50 5 1 20 =
      (SellerResponse.Error "Not your item",
        { sessions := [(5, (⟨5, 99, UserType.Seller, 100⟩ : Session))],
          product_db := { emptyStore with items := [(1, sampleItem)] } }) :=
  (not_your_item_rejected
      ({ sessions := [(5, (⟨5, 99, UserType.Seller, 100⟩ : Session))],
         product_db := { emptyStore with items := [(1, sampleItem)] } }) 50 5 1
      (⟨5, 99, UserType.Seller, 100⟩ : Session) sampleItem 20 9
      (by decide) (by decide) rfl (by decide) (by decide)).1

/-! ### C9: cart invariant over reachable states -/

theorem alookup_mem {α β : Type} [DecidableEq α] {k : α} {v : β} {l : List (α × β)}
    (h : alookup k l = some v) : (k, v) ∈ l := by
  induction l with
  | nil => simp [alookup] at h
  | cons p rest ih =>
      obtain ⟨k', v'⟩ := p
      by_cases hk : k' = k
      · subst hk
        simp [alookup] at h
        simp [h]
      · simp [alookup, hk] at h
        simp [ih h]

theorem goodOp_preserves_cartInv (op : ProductDbRequest) (s : StoreState)
    (hinv : cartInv s) (hop : goodOp op) : cartInv (handle_request op s).2 := by
  cases op with
  | CreateItem item => exact hinv
  | UpdateItem item => exact hinv
  | GetItem i => exact hinv
  | GetItemsBySeller sid => exact hinv
  | SearchItems cat kws => exact hinv
  | GetCart b => exact hinv
  | GetPurchaseHistory b => exact hinv
  | AddPurchaseHistory b i => exact hinv
  | AddToCart b i q =>
      cases hi : alookup i s.items with
      | none =>
          have heq : (handle_request (.AddToCart b i q) s).2 = s := by
            simp only [handle_request]
            rw [hi]
          rw [heq]
          exact hinv
      | some item =>
          by_cases hq : item.quantity < q
          · have heq : (handle_request (.AddToCart b i q) s).2 = s := by
              simp only [handle_request]
              rw [hi]
              simp [hq]
            rw [heq]
            exact hinv
          · have heq := addToCart_step s b i q item hi hq
            rw [heq]
            intro p hp
            rcases mem_aupd hp with hmem | ⟨v, rfl, hv⟩
            · exact hinv p hmem
            · rcases hv with rfl | hv
              · exact ⟨addToCartLine_pos (by simp) hop, addToCartLine_nodup (by simp)⟩
              · obtain ⟨hpos, hnd⟩ := hinv (b, v) (alookup_mem hv)
                exact ⟨addToCartLine_pos hpos hop, addToCartLine_nodup hnd⟩
  | RemoveFromCart b i q =>
      cases hc : alookup b s.carts with
      | none =>
          have heq : (handle_request (.RemoveFromCart b i q) s).2 = s := by
            simp only [handle_request]
            rw [hc]
          rw [heq]
          exact hinv
      | some cart =>
          have heq : (handle_request (.RemoveFromCart b i q) s).2 =
              { s with carts := ainsert b (removeFromCartLine i q cart) s.carts } := by
            simp only [handle_request]
            rw [hc]
          rw [heq]
          intro p hp
          rcases mem_ainsert hp with rfl | hmem
          · obtain ⟨hpos, hnd⟩ := hinv (b, cart) (alookup_mem hc)
            exact ⟨removeFromCartLine_pos hpos,
              (removeFromCartLine_ids_sublist i q cart).nodup hnd⟩
          · exact hinv p hmem
  | SaveCart b cart =>
      intro p hp
      rcases mem_ainsert hp with rfl | hmem
      · exact hop
      · exact hinv p hmem
  | ClearCart b =>
      intro p hp
      exact hinv p (mem_aremove hp)

/-- C9, counterexample: the claim quantifies over all sequences of Catalog
Store operations, but SaveCart stores its request cart verbatim, so one
SaveCart carrying a zero-quantity line reaches a state whose cart violates
strict positivity. -/
theorem cart_invariant_counterexample :
    alookup 1 (applyOps [.SaveCart 1 [({ item_id := 1, quantity := 0 } : CartItem)]]
        emptyStore).carts =
      some [({ item_id := 1, quantity := 0 } : CartItem)] ∧
    ¬ ((0 : Int) < 0) := by
  constructor
  · rfl
  · decide

/-- C9, amended: in every state reachable from the empty store by operations
whose AddToCart quantities are strictly positive and whose SaveCart payloads
themselves satisfy the invariant, every cart line has strictly positive
quantity and every cart has at most one line per distinct item id. -/
theorem reachable_cart_invariant (ops : List ProductDbRequest)
    (h : ∀ op ∈ ops, goodOp op) : cartInv (applyOps ops emptyStore) := by
  have main : ∀ (l : List ProductDbRequest) (s : StoreState), cartInv s →
      (∀ op ∈ l, goodOp op) → cartInv (applyOps l s) := by
    intro l
    induction l with
    | nil => intro s hs _; exact hs
    | cons op rest ih =>
        intro s hs hl
        show cartInv (applyOps rest (handle_request op s).2)
        exact ih _ (goodOp_preserves_cartInv op s hs (hl op (by simp)))
          (fun o ho => hl o (by simp [ho]))
  exact main ops emptyStore (by intro p hp; simp [emptyStore] at hp) h

/-- C9, witness: the invariant holds after a well-formed SaveCart followed by
a positive AddToCart on the empty store (no item exists, so the add is
rejected but the state remains well formed). -/
theorem reachable_cart_invariant_witness :
    cartInv (applyOps [.SaveCart 1 [({ item_id := 4, quantity := 2 } : CartItem)],
        .AddToCart 1 4 3] emptyStore) :=
  reachable_cart_invariant _ (by
    intro op hop
    simp at hop
    rcases hop with rfl | rfl
    · exact ⟨by decide, by decide⟩
    · show (0 : Int) < 3
      decide)

/-! ### C10: UpdateItem on an absent id upserts a record invisible to the indexes -/

theorem alookup_ainsert_isSome {j k : Nat} {v : Item} {l : List (Nat × Item)}
    (h : (alookup j l).isSome = true) : (alookup j (ainsert k v l)).isSome = true := by
  rw [alookup_ainsert]
  by_cases hkj : k = j <;> simp [hkj, h]

theorem op_preserves_indexedIdsExist (op : ProductDbRequest) (s : StoreState)
    (h : indexedIdsExist s) : indexedIdsExist (handle_request op s).2 := by
  obtain ⟨hsell, hcat⟩ := h
  cases op with
  | CreateItem item =>
      constructor
      · intro p hp j hj
        rcases mem_aupd hp with hmem | ⟨v, rfl, hv⟩
        · exact alookup_ainsert_isSome (hsell p hmem j hj)
        · rcases List.mem_append.mp hj with hjv | hjn
          · rcases hv with rfl | hv
            · simp at hjv
            · exact alookup_ainsert_isSome (hsell (item.seller_id, v) (alookup_mem hv) j hjv)
          · obtain rfl : j = s.next_id := by simpa using hjn
            show (alookup s.next_id
              (ainsert s.next_id { item with item_id := s.next_id } s.items)).isSome = true
            rw [alookup_ainsert, if_pos rfl]
            rfl
      · intro p hp j hj
        rcases mem_aupd hp with hmem | ⟨v, rfl, hv⟩
        · exact alookup_ainsert_isSome (hcat p hmem j hj)
        · rcases List.mem_append.mp hj with hjv | hjn
          · rcases hv with rfl | hv
            · simp at hjv
            · exact alookup_ainsert_isSome (hcat (item.item_category, v) (alookup_mem hv) j hjv)
          · obtain rfl : j = s.next_id := by simpa using hjn
            show (alookup s.next_id
              (ainsert s.next_id { item with item_id := s.next_id } s.items)).isSome = true
            rw [alookup_ainsert, if_pos rfl]
            rfl
  | UpdateItem item =>
      exact ⟨fun p hp j hj => alookup_ainsert_isSome (hsell p hp j hj),
        fun p hp j hj => alookup_ainsert_isSome (hcat p hp j hj)⟩
  | GetItem i => exact ⟨hsell, hcat⟩
  | GetItemsBySeller sid => exact ⟨hsell, hcat⟩
  | SearchItems cat kws => exact ⟨hsell, hcat⟩
  | GetCart b => exact ⟨hsell, hcat⟩
  | GetPurchaseHistory b => exact ⟨hsell, hcat⟩
  | AddPurchaseHistory b i => exact ⟨hsell, hcat⟩
  | SaveCart b cart => exact ⟨hsell, hcat⟩
  | ClearCart b => exact ⟨hsell, hcat⟩
  | AddToCart b i q =>
      cases hi : alookup i s.items with
      | none =>
          have heq : (handle_request (.AddToCart b i q) s).2 = s := by
            simp only [handle_request]
            rw [hi]
          rw [heq]
          exact ⟨hsell, hcat⟩
      | some item =>
          by_cases hq : item.quantity < q
          · have heq : (handle_request (.AddToCart b i q) s).2 = s := by
              simp only [handle_request]
              rw [hi]
              simp [hq]
            rw [heq]
            exact ⟨hsell, hcat⟩
          · have heq := addToCart_step s b i q item hi hq
            rw [heq]
            exact ⟨hsell, hcat⟩
  | RemoveFromCart b i q =>
      cases hc : alookup b s.carts with
      | none =>
          have heq : (handle_request (.RemoveFromCart b i q) s).2 = s := by
            simp only [handle_request]
            rw [hc]
          rw [heq]
          exact ⟨hsell, hcat⟩
      | some cart =>
          have heq : (handle_request (.RemoveFromCart b i q) s).2 =
              { s with carts := ainsert b (removeFromCartLine i q cart) s.carts } := by
            simp only [handle_request]
            rw [hc]
          rw [heq]
          exact ⟨hsell, hcat⟩

theorem reachable_indexedIdsExist (ops : List ProductDbRequest) :
    indexedIdsExist (applyOps ops emptyStore) := by
  have main : ∀ (l : List ProductDbRequest) (s : StoreState), indexedIdsExist s →
      indexedIdsExist (applyOps l s) := by
    intro l
    induction l with
    | nil => intro s hs; exact hs
    | cons op rest ih =>
        intro s hs
        show indexedIdsExist (applyOps rest (handle_request op s).2)
        exact ih _ (op_preserves_indexedIdsExist op s hs)
  refine main ops emptyStore ⟨?_, ?_⟩ <;> intro p hp <;> simp [emptyStore] at hp

/-- C10: in any reachable store state, an UpdateItem whose item id is absent
from the primary map answers ItemUpdated (not an error) and inserts the item
as a new record, so GetItem then returns it while neither secondary index
mentions the id. -/
theorem update_item_upsert (ops : List ProductDbRequest) (item : Item)
    (habs : alookup item.item_id (applyOps ops emptyStore).items = none) :
    (handle_request (.UpdateItem item) (applyOps ops emptyStore)).1 =
      ProductDbResponse.ItemUpdated
    ∧ (handle_request (.GetItem item.item_id)
        (handle_request (.UpdateItem item) (applyOps ops emptyStore)).2).1 =
        ProductDbResponse.ItemResp (some item)
    ∧ (∀ p ∈ (handle_request (.UpdateItem item) (applyOps ops emptyStore)).2.seller_items,
        item.item_id ∉ p.2)
    ∧ (∀ p ∈ (handle_request (.UpdateItem item) (applyOps ops emptyStore)).2.category_items,
        item.item_id ∉ p.2) := by
  obtain ⟨hsell, hcat⟩ := reachable_indexedIdsExist ops
  refine ⟨rfl, ?_, ?_, ?_⟩
  · show ProductDbResponse.ItemResp
        (alookup item.item_id (ainsert item.item_id item (applyOps ops emptyStore).items)) = _
    rw [alookup_ainsert, if_pos rfl]
  · intro p hp hmem
    have := hsell p hp item.item_id hmem
    rw [habs] at this
    simp at this
  · intro p hp hmem
    have := hcat p hp item.item_id hmem
    rw [habs] at this
    simp at this

/-- C10, witness: updating `sampleItem` into the empty store (reachable by the
empty operation sequence), where its id 1 is absent. -/
theorem update_item_upsert_witness :
    (handle_request (.UpdateItem sampleItem) (applyOps [] emptyStore)).1 =
      ProductDbResponse.ItemUpdated
    ∧ (handle_request (.GetItem sampleItem.item_id)
        (handle_request (.UpdateItem sampleItem) (applyOps [] emptyStore)).2).1 =
        ProductDbResponse.ItemResp (some sampleItem) :=
  ⟨(update_item_upsert [] sampleItem (by decide)).1,
   (update_item_upsert [] sampleItem (by decide)).2.1⟩

end Marketplace
